import Mathlib

/-!
Verification development for the FreeBSD port of relayd (mmatuska/relayd).

The development shallowly embeds the parts of `usr.sbin/relayd/ca.c` and
`usr.sbin/relayd/relayd.c` that the specification talks about:

* the CA worker's key-operation dispatcher (`ca_dispatch_relay`) and the
  relay-side RSA method reply handling (`rsae_send_imsg`);
* the parent's reload/configure state machine (`parent_reload`,
  `parent_configure`, `parent_configure_done`) and its signal handler
  (`parent_sig_handler`);
* the key-value lookup machinery (`kv_find`, `kv_cmp`, libc `fnmatch`
  with `FNM_CASEFOLD` and libc `strcasecmp`);
* table re-identification (`table_findbyconf`);
* key purging (`purge_key`, `ca_launch`);
* rule installation (`rule_add`);
* hostname canonicalization (`canonicalize_host`).

C strings are modelled as lists of bytes (`List Nat`) that contain no NUL
byte; machine `int` fields are modelled as `Int`, unsigned identifiers as
`Nat`.  Code that calls `fatalx`/`fatal` (process termination) is modelled
by a dedicated result constructor or by `Option.none`, as noted at each
definition.
-/

/-! ### Byte helpers (ASCII, as in <ctype.h> in the C locale) -/

/-- Byte-level `tolower` in the C locale: maps `A`-`Z` (65-90) to
`a`-`z` (97-122) and leaves every other byte unchanged. -/
def tolowerB (c : Nat) : Nat := if 65 ≤ c ∧ c ≤ 90 then c + 32 else c

/-- Decidable test for an ASCII upper-case letter. -/
def isUpperB (c : Nat) : Bool := 65 ≤ c && c ≤ 90

theorem tolowerB_not_upper (c : Nat) : isUpperB (tolowerB c) = false := by
  unfold tolowerB isUpperB
  split <;> simp_all <;> omega

/-- Embedding of libc `strcasecmp`: compare two NUL-free byte strings
case-insensitively, returning the difference of the first mismatching
pair of case-folded bytes (0 on equality, negative/positive otherwise). -/
def strcasecmp : List Nat → List Nat → Int
  | [], [] => 0
  | [], d :: _ => -(tolowerB d : Int)
  | c :: _, [] => (tolowerB c : Int)
  | c :: a, d :: b =>
    if tolowerB c = tolowerB d then strcasecmp a b
    else (tolowerB c : Int) - (tolowerB d : Int)

theorem tolowerB_pos_of_pos {c : Nat} (h : c ≠ 0) : tolowerB c ≠ 0 := by
  unfold tolowerB; split <;> omega

/-- On NUL-free byte strings, `strcasecmp` returns zero exactly when the
case-folded strings are equal. -/
theorem strcasecmp_eq_zero_iff :
    ∀ (a b : List Nat), 0 ∉ a → 0 ∉ b →
      (strcasecmp a b = 0 ↔ a.map tolowerB = b.map tolowerB)
  | [], [] => by simp [strcasecmp]
  | [], d :: b => by
    intro _ hb
    have hd : d ≠ 0 := by simp at hb; tauto
    have := tolowerB_pos_of_pos hd
    simp [strcasecmp]
    omega
  | c :: a, [] => by
    intro ha _
    have hc : c ≠ 0 := by simp at ha; tauto
    have := tolowerB_pos_of_pos hc
    simp [strcasecmp]
    omega
  | c :: a, d :: b => by
    intro ha hb
    simp at ha hb
    unfold strcasecmp
    split
    · rename_i heq
      rw [strcasecmp_eq_zero_iff a b (by tauto) (by tauto)]
      simp [heq]
    · rename_i hne
      constructor
      · intro h; exfalso; apply hne; omega
      · intro h; exfalso; apply hne; simp at h; tauto

/-! ### libc fnmatch with FNM_CASEFOLD

`kv_find` tests glob patterns with `fnmatch(key, match->kv_key,
FNM_CASEFOLD)`.  The embedding follows the BSD libc implementation
(`fnmatch.c`): `*` matches any run of bytes, `?` any single byte, `[...]`
a bracket expression (with `!`/`^` negation, `-` ranges and `\`
escapes; a malformed bracket falls back to a literal `[`), `\` quotes the
next pattern byte (a trailing `\` matches a literal `\`), and every
comparison is case-folded. -/

/-- Result of a bracket-expression match: `err` is `RANGE_ERROR`
(malformed expression), `hit rest` is `RANGE_MATCH` with the pattern that
follows the closing `]`, `miss` is `RANGE_NOMATCH`. -/
inductive RangeRes where
  | err : RangeRes
  | hit (rest : List Nat) : RangeRes
  | miss : RangeRes
deriving DecidableEq

/-- Read one pattern byte, applying a `\` escape: a leading `\` quotes
the following byte, and a `\` at the end of the pattern is `RANGE_ERROR`
(`none`). -/
def readEsc (c : Nat) (p : List Nat) : Option (Nat × List Nat) :=
  if c = 92 then
    match p with
    | [] => none
    | ci :: p2 => some (ci, p2)
  else some (c, p)

theorem readEsc_length {c ci : Nat} {p p2 : List Nat}
    (h : readEsc c p = some (ci, p2)) : p2.length ≤ p.length := by
  unfold readEsc at h
  split at h
  · match p with
    | [] => simp at h
    | x :: xs => simp at h; simp [h.2.symm]
  · simp at h; simp [h.2.symm]

/-- Main loop of BSD `rangematch`.  The caller passes the case-folded
test byte, the negation flag, and fuel (one unit per loop iteration; each
iteration consumes at least one pattern byte, so `p.length + 1` units are
always enough).  `first` is true for the leading item, which may be a
literal `]`. -/
def rmRun (test : Nat) (negate : Bool) :
    Nat → Bool → Bool → List Nat → RangeRes
  | 0, _, _, _ => .err
  | _ + 1, _, _, [] => .err
  | fuel + 1, first, ok, c :: p1 =>
    if first = false ∧ c = 93 then
      -- closing `]`: report the accumulated result
      if ok = negate then .miss else .hit p1
    else
      match readEsc c p1 with
      | none => .err
      | some (ci, p2) =>
        match p2 with
        | 45 :: c2 :: p3 =>
          if c2 = 93 then
            rmRun test negate fuel false (ok || (tolowerB ci == test)) p2
          else
            -- range item `x-y`, where `y` may be escaped
            match readEsc c2 p3 with
            | none => .err
            | some (ce, p4) =>
              rmRun test negate fuel false
                (ok || (tolowerB ci ≤ test && test ≤ tolowerB ce)) p4
        | _ => rmRun test negate fuel false (ok || (tolowerB ci == test)) p2

/-- Embedding of BSD `rangematch` (for `FNM_CASEFOLD`): `p` is the
pattern immediately after the opening `[`. -/
def rangematch (p : List Nat) (test : Nat) : RangeRes :=
  match p with
  | 33 :: p1 => rmRun (tolowerB test) true (p1.length + 1) true false p1
  | 94 :: p1 => rmRun (tolowerB test) true (p1.length + 1) true false p1
  | _ => rmRun (tolowerB test) false (p.length + 1) true false p

/-- Every successful bracket match consumes at least the closing `]`, so
the remaining pattern is strictly shorter than the input. -/
theorem rmRun_hit_length (test : Nat) (negate : Bool) :
    ∀ (fuel : Nat) (first ok : Bool) (p r : List Nat),
      rmRun test negate fuel first ok p = .hit r → r.length < p.length := by
  intro fuel
  induction fuel with
  | zero => intro first ok p r h; simp [rmRun] at h
  | succ n ih =>
    intro first ok p r h
    match p with
    | [] => simp [rmRun] at h
    | c :: p1 =>
      rw [rmRun] at h
      split at h
      · split at h
        · exact absurd h (by simp)
        · simp at h; subst h; simp
      · split at h
        · exact absurd h (by simp)
        · rename_i ci p2 heq
          have hp2 : p2.length ≤ p1.length := readEsc_length heq
          split at h
          · rename_i hold c2 p3
            simp only [List.length_cons] at hp2
            split at h
            · have := ih false _ _ _ h
              simp at this ⊢
              omega
            · split at h
              · exact absurd h (by simp)
              · rename_i ce p4 heq2
                have hp4 : p4.length ≤ p3.length := readEsc_length heq2
                have := ih false _ _ _ h
                simp at this ⊢
                omega
          · have := ih false _ _ _ h
            simp at this ⊢
            omega

theorem rangematch_hit_length {p r : List Nat} {test : Nat}
    (h : rangematch p test = .hit r) : r.length < p.length := by
  unfold rangematch at h
  split at h
  · have := rmRun_hit_length _ _ _ _ _ _ _ h; simp at this ⊢; omega
  · have := rmRun_hit_length _ _ _ _ _ _ _ h; simp at this ⊢; omega
  · exact rmRun_hit_length _ _ _ _ _ _ _ h

/-- Embedding of BSD `fnmatch(pattern, string, FNM_CASEFOLD)`, returning
`true` for a match (the C function returns 0).  The `*` case uses the
standard recursive formulation (match the rest of the pattern here, or
drop one string byte and retry), which computes the same relation as the
C loop over string suffixes. -/
def fnmatch (p s : List Nat) : Bool :=
  match p, s with
  | [], s => s.isEmpty
  | c :: p1, s =>
    if c = 42 then
      -- `*`: match the remaining pattern against every string suffix
      fnmatch p1 s ||
        (match s with
         | [] => false
         | _ :: s1 => fnmatch (c :: p1) s1)
    else if c = 63 then
      -- `?`: match any single byte
      match s with
      | [] => false
      | _ :: s1 => fnmatch p1 s1
    else if c = 91 then
      -- `[`: bracket expression; a malformed one is a literal `[`
      match s with
      | [] => false
      | d :: s1 =>
        match h : rangematch p1 d with
        | .err => if tolowerB c = tolowerB d then fnmatch p1 s1 else false
        | .hit rest => fnmatch rest s1
        | .miss => false
    else if c = 92 then
      -- `\`: quote the next pattern byte; trailing `\` is literal
      match p1 with
      | [] =>
        match s with
        | [] => false
        | d :: s1 => if tolowerB c = tolowerB d then fnmatch [] s1 else false
      | e :: p2 =>
        match s with
        | [] => false
        | d :: s1 => if tolowerB e = tolowerB d then fnmatch p2 s1 else false
    else
      match s with
      | [] => false
      | d :: s1 => if tolowerB c = tolowerB d then fnmatch p1 s1 else false
termination_by p.length + s.length
decreasing_by
  all_goals simp_wf
  all_goals try omega
  · have := rangematch_hit_length h
    omega

/-- On a pattern that contains none of `*` `?` `[` `\\`, `fnmatch` with
`FNM_CASEFOLD` is exactly case-folded string equality. -/
theorem fnmatch_literal :
    ∀ (p s : List Nat),
      (∀ c ∈ p, c ≠ 42 ∧ c ≠ 63 ∧ c ≠ 91 ∧ c ≠ 92) →
      fnmatch p s = decide (p.map tolowerB = s.map tolowerB)
  | [], s => by
    intro _
    rw [fnmatch.eq_1]
    cases s <;> simp
  | [c], [] => by
    intro hp
    have hc := hp c (by simp)
    rw [fnmatch.eq_2, if_neg hc.1, if_neg hc.2.1, if_neg hc.2.2.1,
      if_neg hc.2.2.2]
    simp
  | [c], d :: s1 => by
    intro hp
    have hc := hp c (by simp)
    rw [fnmatch.eq_4, if_neg hc.1, if_neg hc.2.1, if_neg hc.2.2.1,
      if_neg hc.2.2.2, fnmatch.eq_1]
    by_cases hcd : tolowerB c = tolowerB d
    · cases s1 <;> simp [hcd]
    · simp [hcd]
  | c :: e :: p2, [] => by
    intro hp
    have hc := hp c (by simp)
    rw [fnmatch.eq_3, if_neg hc.1, if_neg hc.2.1, if_neg hc.2.2.1,
      if_neg hc.2.2.2]
    simp
  | c :: e :: p2, d :: s1 => by
    intro hp
    have hc := hp c (by simp)
    have hrest : ∀ x ∈ e :: p2, x ≠ 42 ∧ x ≠ 63 ∧ x ≠ 91 ∧ x ≠ 92 := by
      intro x hx; exact hp x (by simp at hx; rcases hx with h | h <;> simp [h])
    rw [fnmatch.eq_5, if_neg hc.1, if_neg hc.2.1, if_neg hc.2.2.1,
      if_neg hc.2.2.2, fnmatch_literal (e :: p2) s1 hrest]
    by_cases hcd : tolowerB c = tolowerB d
    · simp [hcd]
    · simp [hcd]

/-- `List.find?` only depends on the pointwise behaviour of the
predicate on the list. -/
theorem findq_congr {α : Type} :
    ∀ (l : List α) (f g : α → Bool), (∀ x ∈ l, f x = g x) →
      l.find? f = l.find? g
  | [], _, _ => by intro _; rfl
  | x :: xs, f, g => by
    intro h
    have hx := h x (by simp)
    rw [List.find?, List.find?, hx]
    cases g x
    · exact findq_congr xs f g (fun y hy => h y (by simp [hy]))
    · rfl

/-! ### Key-value patterns and lookup (struct kv, kv_find, kv_cmp)

Fields of `struct kv` not used by the lookup path (children, parent,
match pointers, type, option) are omitted.  `kv_add` never inserts a kv
with a NULL key into a tree, so tree entries are modelled with a plain
key; the RB tree is modelled as its in-order entry list (RB_FOREACH
order), in which `kv_add` keeps keys unique up to `kv_cmp`. -/

/-- The `KV_FLAG_GLOBBING` bit of `kv_flags` (set by `rule_add` when the
key contains one of `*?[`). -/
def KV_FLAG_GLOBBING : Nat := 2

/-- The `KV_FLAG_MACRO` bit of `kv_flags` (set by `rule_add` when the
value contains `$`). -/
def KV_FLAG_MACRO_BIT : Nat := 4

/-- Model of `struct kv` restricted to the fields the lookup reads. -/
structure Kv where
  kv_key : List Nat
  kv_value : Option (List Nat)
  kv_flags : Nat
deriving DecidableEq

/-- Embedding of `kv_cmp`: case-insensitive comparison of the keys
(`strcasecmp(a->kv_key, b->kv_key)`), the RB-tree ordering. -/
def kv_cmp (a b : Kv) : Int := strcasecmp a.kv_key b.kv_key

/-- The globbing branch of `kv_find`: walk the tree in RB order and
return the first entry whose key the (case-folded) pattern matches. -/
def kv_find_glob (keys : List Kv) (kv : Kv) : Option Kv :=
  keys.find? (fun m => fnmatch kv.kv_key m.kv_key)

/-- The exact branch of `kv_find`: `RB_FIND` with `kv_cmp`, i.e. the
unique tree entry whose key is case-insensitively equal to the lookup
key (tree keys are unique up to `kv_cmp`, so the first such entry in
RB order is the tree entry `RB_FIND` returns). -/
def kv_find_exact (keys : List Kv) (kv : Kv) : Option Kv :=
  keys.find? (fun m => kv_cmp kv m = 0)

/-- Embedding of `kv_find`: glob scan when the lookup kv carries
`KV_FLAG_GLOBBING`, exact tree lookup otherwise. -/
def kv_find (keys : List Kv) (kv : Kv) : Option Kv :=
  if kv.kv_flags &&& KV_FLAG_GLOBBING ≠ 0 then kv_find_glob keys kv
  else kv_find_exact keys kv

/-- Decidable test used to state glob-metacharacter absence: true when
the byte is none of `*` (42), `?` (63), `[` (91). -/
def noGlobChar (c : Nat) : Bool := !(c == 42 || c == 63 || c == 91)

/-- Decidable test for the amended parity claim: additionally excludes
the `\` escape byte (92) and NUL (0). -/
def plainKeyChar (c : Nat) : Bool := noGlobChar c && !(c == 92) && !(c == 0)

/-- Concrete kv tree entry whose key is `a\b` (backslash, no `*?[`). -/
def kvCexEntry : Kv := ⟨[97, 92, 98], none, 0⟩

/-- Concrete lookup kv with the same key `a\b`. -/
def kvCexLookup : Kv := ⟨[97, 92, 98], none, 0⟩

/-- Claim C6, counterexample: the key `a\b` contains none of the glob
metacharacters `*?[`, yet the linear fnmatch scan misses (the `\`
quotes the following byte) while the exact case-insensitive find returns
the record, so the two lookups disagree. -/
theorem kv_glob_exact_parity_cex :
    ([97, 92, 98].all noGlobChar = true) ∧
    kv_find_glob [kvCexEntry] kvCexLookup = none ∧
    kv_find_exact [kvCexEntry] kvCexLookup = some kvCexEntry := by
  refine ⟨by decide, ?_, by decide⟩
  simp [kv_find_glob, kvCexEntry, kvCexLookup, fnmatch, tolowerB]

/-- Claim C6 (amended): for every kv tree and every lookup key that
contains none of `*` `?` `[` and no `\` escape byte (and no NUL, these
being C strings), the linear case-folding glob scan and the exact
RB-tree find return the same record or both return none; moreover
`kv_find` without the GLOBBING flag is the exact find. -/
theorem kv_glob_exact_parity (keys : List Kv) (kv : Kv)
    (hkey : kv.kv_key.all plainKeyChar = true)
    (hkeys : ∀ m ∈ keys, (0 : Nat) ∉ m.kv_key) :
    kv_find_glob keys kv = kv_find_exact keys kv ∧
    (kv.kv_flags &&& KV_FLAG_GLOBBING = 0 →
      kv_find keys kv = kv_find_exact keys kv) := by
  constructor
  · unfold kv_find_glob kv_find_exact
    apply findq_congr
    intro m hm
    have hchars : ∀ c ∈ kv.kv_key, c ≠ 42 ∧ c ≠ 63 ∧ c ≠ 91 ∧ c ≠ 92 := by
      intro c hc
      have := List.all_eq_true.mp hkey c hc
      simp [plainKeyChar, noGlobChar] at this
      tauto
    have hnz : (0 : Nat) ∉ kv.kv_key := by
      intro h0
      have := List.all_eq_true.mp hkey 0 h0
      simp [plainKeyChar, noGlobChar] at this
    rw [fnmatch_literal kv.kv_key m.kv_key hchars]
    have h2 := strcasecmp_eq_zero_iff kv.kv_key m.kv_key hnz (hkeys m hm)
    simp [kv_cmp, h2]
  · intro hflag
    simp [kv_find, hflag]

/-- Concrete kv tree entry with key `Host`. -/
def kvParityEntry : Kv := ⟨[72, 111, 115, 116], none, 0⟩

/-- Concrete lookup kv with key `host` and no GLOBBING flag. -/
def kvParityLookup : Kv := ⟨[104, 111, 115, 116], none, 0⟩

/-- Witness for the amended C6 parity theorem at a concrete tree. -/
theorem kv_glob_exact_parity_witness :
    kv_find_glob [kvParityEntry] kvParityLookup =
      kv_find_exact [kvParityEntry] kvParityLookup ∧
    kv_find_exact [kvParityEntry] kvParityLookup = some kvParityEntry :=
  ⟨(kv_glob_exact_parity [kvParityEntry] kvParityLookup (by decide)
      (by decide)).1, by decide⟩

/-! ### Tables and table_findbyconf

`struct table_config` is a flat struct compared with `bcmp` after the
`id` and `rdrid` fields are zeroed and the `F_USED|F_BACKUP` flag bits
cleared; the fields other than `id`, `rdrid` and `flags` (name, check
method, timeouts, ports, ...) are collapsed into an opaque byte list
`rest`, so structure equality coincides with byte equality of the C
struct.  Flag bit values follow relayd.h (`F_BACKUP` 0x2, `F_USED`
0x4). -/

def F_BACKUP : Nat := 0x2
def F_USED : Nat := 0x4
def F_SSL : Nat := 0x800
def F_SSLCLIENT : Nat := 0x200000

/-- Model of `struct table_config`. -/
structure TableConfig where
  id : Nat
  rdrid : Nat
  flags : Nat
  rest : List Nat
deriving DecidableEq

/-- Model of `struct table` restricted to the fields `table_findbyconf`
reads: the config and the optional send buffer. -/
structure RTable where
  conf : TableConfig
  sendbuf : Option (List Nat)
deriving DecidableEq

/-- The scrubbing `table_findbyconf` applies to both configs before
`bcmp`: zero `id` and `rdrid` and clear `F_USED|F_BACKUP` in `flags`
(`a.flags &= ~(F_USED|F_BACKUP)`; the mask below is the 32-bit
complement of 0x6). -/
def scrubConf (c : TableConfig) : TableConfig :=
  { c with id := 0, rdrid := 0, flags := c.flags &&& 0xfffffff9 }

/-- The send-buffer part of the comparison: both absent, or both present
and `strcmp`-equal (NUL-free strings, so list equality). -/
def sendbufMatch : Option (List Nat) → Option (List Nat) → Bool
  | none, none => true
  | some a, some b => a == b
  | _, _ => false

/-- The per-entry predicate of `table_findbyconf`: scrubbed configs
`bcmp`-equal and send buffers matching. -/
def tableConfMatch (tb t : RTable) : Bool :=
  (scrubConf tb.conf == scrubConf t.conf) && sendbufMatch tb.sendbuf t.sendbuf

/-- Embedding of `table_findbyconf`: return the first table of the
environment list whose configuration seems to be the same. -/
def table_findbyconf (tables : List RTable) (tb : RTable) : Option RTable :=
  tables.find? (fun t => tableConfMatch tb t)

/-- Claim C7: two tables are identified as the same table exactly when
their configurations are byte-equal after zeroing `id` and `rdrid` and
clearing `F_USED|F_BACKUP`, and their send buffers are both absent or
string-equal; `table_findbyconf` returns a member matching its argument
under that relation; and two tables differing only in `rdrid` are
identified as equal. -/
theorem table_findbyconf_structural (a b : RTable) (tables : List RTable)
    (tb t : RTable) (h : table_findbyconf tables tb = some t)
    (c : TableConfig) (sb : Option (List Nat)) (r1 r2 : Nat) :
    (tableConfMatch a b = true ↔
      (scrubConf a.conf = scrubConf b.conf ∧ a.sendbuf = b.sendbuf)) ∧
    (t ∈ tables ∧ tableConfMatch tb t = true) ∧
    tableConfMatch ⟨{ c with rdrid := r1 }, sb⟩ ⟨{ c with rdrid := r2 }, sb⟩
      = true := by
  refine ⟨?_, ⟨List.mem_of_find?_eq_some h, List.find?_some h⟩, ?_⟩
  · unfold tableConfMatch
    constructor
    · intro hm
      simp at hm
      refine ⟨hm.1, ?_⟩
      rcases ha : a.sendbuf with _ | u <;> rcases hb : b.sendbuf with _ | v <;>
        simp [ha, hb, sendbufMatch] at hm ⊢
      exact hm.2
    · intro hm
      simp [hm.1, hm.2]
      rcases hb : b.sendbuf with _ | v <;> simp [sendbufMatch]
  · unfold tableConfMatch scrubConf
    rcases sb with _ | u <;> simp [sendbufMatch]

/-- Concrete table that is live before a reload. -/
def tblLive : RTable := ⟨⟨9, 5, 0, [1, 2]⟩, some [80]⟩

/-- Concrete reloaded table differing from `tblLive` only in `id`,
`rdrid` and the `F_USED|F_BACKUP` bits. -/
def tblNew : RTable := ⟨⟨7, 3, 0x6, [1, 2]⟩, some [80]⟩

/-- Witness for C7: a concrete environment in which a table differing
from an existing one only in `id`, `rdrid` and the `F_USED|F_BACKUP`
bits is re-identified with it. -/
theorem table_findbyconf_structural_witness :
    (scrubConf tblNew.conf = scrubConf tblLive.conf ∧
      tblNew.sendbuf = tblLive.sendbuf) ∧
    table_findbyconf [tblLive] tblNew = some tblLive :=
  ⟨(table_findbyconf_structural tblNew tblLive [tblLive] tblNew tblLive
      (by decide) ⟨0, 0, 0, []⟩ none 0 0).1.mp (by decide), by decide⟩

/-! ### Key purging (purge_key, ca_launch)

A key buffer pointer is an `Option (List Nat)` (`none` is a NULL
pointer).  `purge_key` returns the new pointer value and, when the
buffer was freed, the final contents of the freed region (`bzero`
writes `len` zero bytes before `free`). -/

/-- Embedding of `purge_key`: NULL pointer or zero length changes
nothing (no freed region, pointer untouched); otherwise the first `len`
bytes are zeroed, the buffer is freed and the pointer set to NULL. -/
def purge_key : Option (List Nat) → Nat → Option (List Nat) × Option (List Nat)
  | none, _ => (none, none)
  | some key, len =>
    if len = 0 then (some key, none)
    else (none, some (List.replicate len 0 ++ key.drop len))

/-- Model of `struct relay` restricted to the fields `ca_launch`
touches in the CA worker: flags, the four blob lengths and the four
parent-supplied PEM blobs. -/
structure CaRelay where
  flags : Nat
  ssl_key_len : Nat
  ssl_cert_len : Nat
  ssl_cakey_len : Nat
  ssl_cacert_len : Nat
  ssl_key : Option (List Nat)
  ssl_cert : Option (List Nat)
  ssl_cakey : Option (List Nat)
  ssl_cacert : Option (List Nat)
deriving DecidableEq

/-- The SSL-key block of `ca_launch`: when `ssl_key_len` is non-zero,
read the PEM blob (`pemOk` abstracts `BIO_new_mem_buf` +
`PEM_read_bio_PrivateKey`; a NULL blob or a failed parse is `fatalx`,
i.e. `none`; `pkey_add` only extends the pkey table and is not
modelled), then purge the blob. -/
def ca_launch_key (pemOk : List Nat → Bool) (r : CaRelay) : Option CaRelay :=
  if r.ssl_key_len ≠ 0 then
    match r.ssl_key with
    | none => none
    | some buf =>
      if pemOk buf then
        some { r with ssl_key := (purge_key (some buf) r.ssl_key_len).1 }
      else none
  else some r

/-- The SSL-certificate block of `ca_launch`: purge the cert blob when
present. -/
def ca_launch_cert (r : CaRelay) : Option CaRelay :=
  if r.ssl_cert_len ≠ 0 then
    some { r with ssl_cert := (purge_key r.ssl_cert r.ssl_cert_len).1 }
  else some r

/-- The CA-key block of `ca_launch`, as for the SSL key. -/
def ca_launch_cakey (pemOk : List Nat → Bool) (r : CaRelay) : Option CaRelay :=
  if r.ssl_cakey_len ≠ 0 then
    match r.ssl_cakey with
    | none => none
    | some buf =>
      if pemOk buf then
        some { r with ssl_cakey := (purge_key (some buf) r.ssl_cakey_len).1 }
      else none
  else some r

/-- The CA-certificate block of `ca_launch`: purge the CA cert blob when
present. -/
def ca_launch_cacert (r : CaRelay) : Option CaRelay :=
  if r.ssl_cacert_len ≠ 0 then
    some { r with ssl_cacert := (purge_key r.ssl_cacert r.ssl_cacert_len).1 }
  else some r

/-- Embedding of the per-relay body of `ca_launch`: relays without
`F_SSL|F_SSLCLIENT` are skipped (`continue`); otherwise the four blocks
run in source order. -/
def ca_launch_relay (pemOk : List Nat → Bool) (r : CaRelay) : Option CaRelay :=
  if r.flags &&& (F_SSL ||| F_SSLCLIENT) = 0 then some r
  else
    (ca_launch_key pemOk r).bind (fun r1 =>
      (ca_launch_cert r1).bind (fun r2 =>
        (ca_launch_cakey pemOk r2).bind (fun r3 => ca_launch_cacert r3)))

/-- Embedding of `ca_launch` (the `IMSG_CTL_START` handler in the CA
worker): the `TAILQ_FOREACH` loop over the environment relays; any
`fatalx` on the way terminates the process (`none`). -/
def ca_launch (pemOk : List Nat → Bool) : List CaRelay → Option (List CaRelay)
  | [] => some []
  | r :: rest =>
    match ca_launch_relay pemOk r with
    | none => none
    | some r1 => (ca_launch pemOk rest).map (fun rest1 => r1 :: rest1)

theorem ca_launch_key_fields (pemOk : List Nat → Bool) {r r1 : CaRelay}
    (h : ca_launch_key pemOk r = some r1) :
    r1.ssl_key_len = r.ssl_key_len ∧
    (r1.ssl_key_len ≠ 0 → r1.ssl_key = none) ∧
    r1.ssl_cakey = r.ssl_cakey ∧ r1.ssl_cakey_len = r.ssl_cakey_len := by
  unfold ca_launch_key at h
  split at h
  · rename_i hlen
    split at h
    · simp at h
    · simp at h
      obtain ⟨hok, hrec⟩ := h
      subst hrec
      simp [purge_key, hlen]
  · simp at h
    subst h
    simp_all

theorem ca_launch_cert_fields {r r2 : CaRelay}
    (h : ca_launch_cert r = some r2) :
    r2.ssl_key = r.ssl_key ∧ r2.ssl_key_len = r.ssl_key_len ∧
    r2.ssl_cakey = r.ssl_cakey ∧ r2.ssl_cakey_len = r.ssl_cakey_len := by
  unfold ca_launch_cert at h
  split at h <;> simp at h <;> subst h <;> simp

theorem ca_launch_cakey_fields (pemOk : List Nat → Bool) {r r3 : CaRelay}
    (h : ca_launch_cakey pemOk r = some r3) :
    r3.ssl_cakey_len = r.ssl_cakey_len ∧
    (r3.ssl_cakey_len ≠ 0 → r3.ssl_cakey = none) ∧
    r3.ssl_key = r.ssl_key ∧ r3.ssl_key_len = r.ssl_key_len := by
  unfold ca_launch_cakey at h
  split at h
  · rename_i hlen
    split at h
    · simp at h
    · simp at h
      obtain ⟨hok, hrec⟩ := h
      subst hrec
      simp [purge_key, hlen]
  · simp at h
    subst h
    simp_all

theorem ca_launch_cacert_fields {r r4 : CaRelay}
    (h : ca_launch_cacert r = some r4) :
    r4.ssl_key = r.ssl_key ∧ r4.ssl_key_len = r.ssl_key_len ∧
    r4.ssl_cakey = r.ssl_cakey ∧ r4.ssl_cakey_len = r.ssl_cakey_len := by
  unfold ca_launch_cacert at h
  split at h <;> simp at h <;> subst h <;> simp

/-- After a successful `ca_launch_relay` on an SSL relay, the SSL key
and CA key blobs are gone. -/
theorem ca_launch_relay_purges (pemOk : List Nat → Bool) (r r' : CaRelay)
    (hssl : r.flags &&& (F_SSL ||| F_SSLCLIENT) ≠ 0)
    (h : ca_launch_relay pemOk r = some r') :
    (r'.ssl_key_len ≠ 0 → r'.ssl_key = none) ∧
    (r'.ssl_cakey_len ≠ 0 → r'.ssl_cakey = none) := by
  unfold ca_launch_relay at h
  rw [if_neg hssl] at h
  simp only [Option.bind_eq_some] at h
  obtain ⟨r1, h1, r2, h2, r3, h3, h4⟩ := h
  have f1 := ca_launch_key_fields pemOk h1
  have f2 := ca_launch_cert_fields h2
  have f3 := ca_launch_cakey_fields pemOk h3
  have f4 := ca_launch_cacert_fields h4
  constructor
  · intro hlen
    have hl1 : r1.ssl_key_len ≠ 0 := by
      rw [← f2.2.1, ← f3.2.2.2, ← f4.2.1]; exact hlen
    rw [f4.1, f3.2.2.1, f2.1]
    exact f1.2.1 hl1
  · intro hlen
    have hl2 : r3.ssl_cakey_len ≠ 0 := by
      rw [← f4.2.2.2]; exact hlen
    rw [f4.2.2.1]
    exact f3.2.1 hl2

/-- Every element of a successful `ca_launch` output comes from a
successful `ca_launch_relay`. -/
theorem ca_launch_mem (pemOk : List Nat → Bool) :
    ∀ (rs rs' : List CaRelay), ca_launch pemOk rs = some rs' →
      ∀ r' ∈ rs', ∃ r, ca_launch_relay pemOk r = some r'
  | [], rs' => by
    intro h r' hr'
    simp [ca_launch] at h
    subst h
    simp at hr'
  | r :: rest, rs' => by
    intro h r' hr'
    rw [ca_launch] at h
    match h1 : ca_launch_relay pemOk r with
    | none => rw [h1] at h; simp at h
    | some r1 =>
      rw [h1] at h
      match h2 : ca_launch pemOk rest with
      | none => rw [h2] at h; simp at h
      | some rest1 =>
        rw [h2] at h
        simp at h
        subst h
        simp at hr'
        rcases hr' with hr' | hr'
        · exact ⟨r, by rw [hr']; exact h1⟩
        · exact ca_launch_mem pemOk rest rest1 h2 r' hr'

/-- The purge result characterized on the output relay: an output that
carries the SSL flags has no key blobs left. -/
theorem ca_launch_relay_purges_out (pemOk : List Nat → Bool)
    (r r' : CaRelay) (hssl : r'.flags &&& (F_SSL ||| F_SSLCLIENT) ≠ 0)
    (h : ca_launch_relay pemOk r = some r') :
    (r'.ssl_key_len ≠ 0 → r'.ssl_key = none) ∧
    (r'.ssl_cakey_len ≠ 0 → r'.ssl_cakey = none) := by
  by_cases hr : r.flags &&& (F_SSL ||| F_SSLCLIENT) = 0
  · exfalso
    unfold ca_launch_relay at h
    rw [if_pos hr] at h
    simp at h
    subst h
    exact hssl hr
  · exact ca_launch_relay_purges pemOk r r' hr h

/-- Claim C8: `purge_key` zero-fills the whole buffer of the stated
length, frees it and clears the pointer; a NULL pointer or zero length
changes nothing; and after `ca_launch` every SSL relay with an SSL key
or CA key has had the parent-supplied PEM blob purged. -/
theorem purge_key_ca_launch_spec (buf : List Nat) (len : Nat)
    (pemOk : List Nat → Bool) (rs rs' : List CaRelay)
    (hlaunch : ca_launch pemOk rs = some rs') :
    (len ≠ 0 → purge_key (some buf) len =
      (none, some (List.replicate len 0 ++ buf.drop len))) ∧
    (len = buf.length → len ≠ 0 →
      (purge_key (some buf) len).2 = some (List.replicate len 0)) ∧
    purge_key none len = (none, none) ∧
    purge_key (some buf) 0 = (some buf, none) ∧
    (∀ r' ∈ rs', r'.flags &&& (F_SSL ||| F_SSLCLIENT) ≠ 0 →
      (r'.ssl_key_len ≠ 0 → r'.ssl_key = none) ∧
      (r'.ssl_cakey_len ≠ 0 → r'.ssl_cakey = none)) := by
  refine ⟨?_, ?_, rfl, by simp [purge_key], ?_⟩
  · intro hlen
    simp [purge_key, hlen]
  · intro hbuf hlen
    subst hbuf
    have hne : buf ≠ [] := by
      intro he
      rw [he] at hlen
      simp at hlen
    simp [purge_key, hne]
  · intro r' hr' hssl
    obtain ⟨r, hrel⟩ := ca_launch_mem pemOk rs rs' hlaunch r' hr'
    exact ca_launch_relay_purges_out pemOk r r' hssl hrel

/-- Trivial PEM oracle for the witness: every blob parses. -/
def pemAlwaysOk : List Nat → Bool := fun _ => true

/-- Concrete SSL relay carrying an SSL key blob before `ca_launch`. -/
def caRelayW : CaRelay :=
  ⟨0x800, 2, 0, 0, 0, some [5, 6], none, none, none⟩

/-- Witness for C8 at a concrete relay list: after `ca_launch`, the key
blob is purged, and `purge_key` zero-fills a concrete 3-byte buffer. -/
theorem purge_key_ca_launch_spec_witness :
    purge_key (some [1, 2, 3]) 3 = (none, some [0, 0, 0]) ∧
    ca_launch pemAlwaysOk [caRelayW] =
      some [⟨0x800, 2, 0, 0, 0, none, none, none, none⟩] ∧
    (⟨0x800, 2, 0, 0, 0, none, none, none, none⟩ : CaRelay).ssl_key = none := by
  refine ⟨?_, by decide, ?_⟩
  · have h := (purge_key_ca_launch_spec [1, 2, 3] 3 pemAlwaysOk [] []
      rfl).1 (by decide)
    simpa using h
  · exact ((purge_key_ca_launch_spec [1, 2, 3] 3 pemAlwaysOk [caRelayW]
      [⟨0x800, 2, 0, 0, 0, none, none, none, none⟩] (by decide)).2.2.2.2
      ⟨0x800, 2, 0, 0, 0, none, none, none, none⟩ (by decide)
      (by decide)).1 (by decide)

/-! ### Rules (struct relay_rule, rule_add)

`rule_kv` is an array indexed by key type (KEY_TYPE_NONE 0, COOKIE 1,
HEADER 2, PATH 3, QUERY 4, URL 5; KEY_TYPE_MAX 6); an entry is populated
when its `kv_type` equals its index.  Direction values follow
relayd.h (`RELAY_DIR_REQUEST` 1, `RELAY_DIR_RESPONSE` 2); `kv_option`
`KEY_OPTION_LOG` is 5.  The optional rule file is a list of lines;
`fopen` failure is not modelled (it fails the call just like a bad
pattern).  `rule_inherit` label/tag reference bumps do not affect the
kv patterns and are omitted. -/

def KEY_TYPE_NONE : Nat := 0
def KEY_TYPE_COOKIE : Nat := 1
def KEY_TYPE_HEADER : Nat := 2
def KEY_TYPE_PATH : Nat := 3
def KEY_TYPE_QUERY : Nat := 4
def KEY_TYPE_URL : Nat := 5
def KEY_TYPE_MAX : Nat := 6
def KEY_OPTION_LOG : Nat := 5
def RELAY_DIR_REQUEST : Nat := 1
def RELAY_DIR_RESPONSE : Nat := 2

/-- Model of a `rule_kv` array slot of `struct relay_rule` (a NULL key
or value is `none`). -/
structure RuleKv where
  kv_type : Nat
  kv_option : Nat
  kv_key : Option (List Nat)
  kv_value : Option (List Nat)
  kv_flags : Nat
deriving DecidableEq

/-- Model of `struct relay_rule` restricted to the fields `rule_add`
reads: the direction and the kv array. -/
structure RelayRule where
  rule_dir : Nat
  rule_kv : List RuleKv
deriving DecidableEq

/-- Test for `strpbrk(key, "*?[") != NULL`. -/
def hasGlobByte (k : List Nat) : Bool := k.any (fun c => !(noGlobChar c))

/-- Test for `strchr(value, Dollar) != NULL` (36 is the dollar byte). -/
def hasDollarByte (v : List Nat) : Bool := v.any (fun c => c == 36)

/-- The LOG fixup of `rule_add`: a LOG pattern without a key and
without a rule file gets the key pattern `*`. -/
def kvLogStar (noFile : Bool) (kv : RuleKv) : RuleKv :=
  if kv.kv_option = KEY_OPTION_LOG ∧ kv.kv_key = none ∧ noFile then
    { kv with kv_key := some [42] }
  else kv

/-- The MACRO flag assignment of `rule_add`
(`strchr(kv_value, 0x24) != NULL`). -/
def kvSetMacroFlag (kv : RuleKv) : RuleKv :=
  match kv.kv_value with
  | some v =>
    if hasDollarByte v then
      { kv with kv_flags := kv.kv_flags ||| KV_FLAG_MACRO_BIT }
    else kv
  | none => kv

/-- The GLOBBING flag assignment of `rule_add`
(`strpbrk(kv_key, "*?[") != NULL`). -/
def kvSetGlobFlag (kv : RuleKv) : RuleKv :=
  match kv.kv_key with
  | some k =>
    if hasGlobByte k then
      { kv with kv_flags := kv.kv_flags ||| KV_FLAG_GLOBBING }
    else kv
  | none => kv

/-- The per-slot body of the first loop of `rule_add`: skip unpopulated
slots; apply the LOG fixup; reject QUERY/PATH/URL patterns outside
request rules (`goto fail`, i.e. `none`); then set the MACRO and
GLOBBING flags. -/
def rule_add_kv (dir : Nat) (noFile : Bool) (i : Nat) (kv : RuleKv) :
    Option RuleKv :=
  if kv.kv_type ≠ i then some kv
  else
    let kv1 := kvLogStar noFile kv
    if (kv1.kv_type = KEY_TYPE_QUERY ∨ kv1.kv_type = KEY_TYPE_PATH ∨
        kv1.kv_type = KEY_TYPE_URL) ∧ dir ≠ RELAY_DIR_REQUEST then none
    else some (kvSetGlobFlag (kvSetMacroFlag kv1))

/-- The first loop of `rule_add`, starting at slot index `i`. -/
def rule_add_kvs (dir : Nat) (noFile : Bool) :
    Nat → List RuleKv → Option (List RuleKv)
  | _, [] => some []
  | i, kv :: rest =>
    match rule_add_kv dir noFile i kv with
    | none => none
    | some kv1 => (rule_add_kvs dir noFile (i + 1) rest).map
        (fun rest1 => kv1 :: rest1)

/-- The whitespace strip of the rule-file loop:
`buf[strcspn(buf, "\r\n\t ")] = 0`. -/
def stripLine (l : List Nat) : List Nat :=
  l.takeWhile (fun c => !(c == 13 || c == 10 || c == 9 || c == 32))

/-- The key replacement of the rule-file loop: every populated slot of
the inherited rule gets the line as its key (flags are not
recomputed). -/
def replaceKeys (buf : List Nat) : Nat → List RuleKv → List RuleKv
  | _, [] => []
  | i, kv :: rest =>
    (if kv.kv_type = i then { kv with kv_key := some buf } else kv) ::
      replaceKeys buf (i + 1) rest

/-- Embedding of `rule_add`: run the flag/validation loop; without a
rule file, append the single rule; with a rule file, append one
inherited rule per non-empty non-comment line, with the stripped line
as the key of every populated pattern. -/
def rule_add (rule : RelayRule) (rulefile : Option (List (List Nat))) :
    Option (List RelayRule) :=
  match rule_add_kvs rule.rule_dir rulefile.isNone 0 rule.rule_kv with
  | none => none
  | some kvs =>
    match rulefile with
    | none => some [{ rule with rule_kv := kvs }]
    | some lines =>
      some (lines.filterMap (fun line =>
        let buf := stripLine line
        if buf.isEmpty || (buf.head? == some 35) then none
        else some { rule with rule_kv := replaceKeys buf 0 kvs }))

theorem or_mask_self (x m : Nat) : (x ||| m) &&& m = m := by
  apply Nat.eq_of_testBit_eq
  intro j
  rw [Nat.testBit_and, Nat.testBit_or]
  cases hm : m.testBit j <;> simp [hm]

theorem and_mask_of_or {x m : Nat} (y : Nat) (h : x &&& m ≠ 0) :
    (x ||| y) &&& m ≠ 0 := by
  intro hz
  apply h
  apply Nat.eq_of_testBit_eq
  intro j
  have hj := congrArg (fun n => n.testBit j) hz
  simp only [Nat.testBit_and, Nat.testBit_or, Nat.zero_testBit] at hj
  rw [Nat.testBit_and, Nat.zero_testBit]
  cases hx : x.testBit j <;> cases hm : m.testBit j <;> simp_all

theorem kvLogStar_spec (noFile : Bool) (kv : RuleKv) :
    (kvLogStar noFile kv).kv_type = kv.kv_type ∧
    (kvLogStar noFile kv).kv_value = kv.kv_value ∧
    (kvLogStar noFile kv).kv_flags = kv.kv_flags := by
  unfold kvLogStar
  split <;> simp

theorem kvSetMacroFlag_spec (kv : RuleKv) :
    (kvSetMacroFlag kv).kv_key = kv.kv_key ∧
    (kvSetMacroFlag kv).kv_value = kv.kv_value ∧
    ((kvSetMacroFlag kv).kv_flags = kv.kv_flags ∨
      (kvSetMacroFlag kv).kv_flags = kv.kv_flags ||| KV_FLAG_MACRO_BIT) ∧
    (∀ v, kv.kv_value = some v → hasDollarByte v = true →
      (kvSetMacroFlag kv).kv_flags &&& KV_FLAG_MACRO_BIT ≠ 0) := by
  unfold kvSetMacroFlag
  cases hv : kv.kv_value with
  | none => simp [hv]
  | some v =>
    simp only [hv]
    split
    · rename_i hd
      simp [or_mask_self, KV_FLAG_MACRO_BIT]
    · rename_i hd
      simp [hv]
      intro hdl
      exact absurd hdl hd

theorem kvSetGlobFlag_spec (kv : RuleKv) :
    (kvSetGlobFlag kv).kv_key = kv.kv_key ∧
    (kvSetGlobFlag kv).kv_value = kv.kv_value ∧
    ((kvSetGlobFlag kv).kv_flags = kv.kv_flags ∨
      (kvSetGlobFlag kv).kv_flags = kv.kv_flags ||| KV_FLAG_GLOBBING) ∧
    (∀ k, kv.kv_key = some k → hasGlobByte k = true →
      (kvSetGlobFlag kv).kv_flags &&& KV_FLAG_GLOBBING ≠ 0) := by
  unfold kvSetGlobFlag
  cases hk : kv.kv_key with
  | none => simp [hk]
  | some k =>
    simp only [hk]
    split
    · rename_i hd
      simp [or_mask_self, KV_FLAG_GLOBBING]
    · rename_i hd
      simp [hk]
      intro hgl
      exact absurd hgl hd

/-- A processed (populated) slot of the first `rule_add` loop carries
the GLOBBING flag whenever its key holds a glob byte and the MACRO flag
whenever its value holds a dollar byte. -/
theorem rule_add_kv_flags (dir : Nat) (noFile : Bool) (i : Nat)
    (kv kv' : RuleKv) (h : rule_add_kv dir noFile i kv = some kv')
    (ht : kv'.kv_type = i) :
    (∀ k, kv'.kv_key = some k → hasGlobByte k = true →
      kv'.kv_flags &&& KV_FLAG_GLOBBING ≠ 0) ∧
    (∀ v, kv'.kv_value = some v → hasDollarByte v = true →
      kv'.kv_flags &&& KV_FLAG_MACRO_BIT ≠ 0) := by
  unfold rule_add_kv at h
  split at h
  · rename_i hskip
    simp at h
    subst h
    exact absurd ht hskip
  · dsimp only [] at h
    split at h
    · simp at h
    · simp only [Option.some.injEq] at h
      subst h
      have hm := kvSetMacroFlag_spec (kvLogStar noFile kv)
      have hg := kvSetGlobFlag_spec (kvSetMacroFlag (kvLogStar noFile kv))
      constructor
      · intro k hk hglob
        rw [hg.1, hm.1] at hk
        exact hg.2.2.2 k (by rw [hm.1]; exact hk) hglob
      · intro v hv hdollar
        rw [hg.2.1, hm.2.1] at hv
        have hmac := hm.2.2.2 v hv hdollar
        rcases hg.2.2.1 with he | he
        · rw [he]; exact hmac
        · rw [he]; exact and_mask_of_or _ hmac

/-- Every slot of the output of the first `rule_add` loop is the image
of the corresponding input slot under `rule_add_kv`. -/
theorem rule_add_kvs_get (dir : Nat) (noFile : Bool) :
    ∀ (l l' : List RuleKv) (i0 : Nat),
      rule_add_kvs dir noFile i0 l = some l' →
      ∀ (j : Nat) (kv' : RuleKv), l'[j]? = some kv' →
        ∃ kv, l[j]? = some kv ∧
          rule_add_kv dir noFile (i0 + j) kv = some kv'
  | [], l', i0 => by
    intro h j kv' hj
    simp [rule_add_kvs] at h
    subst h
    simp at hj
  | kv0 :: rest, l', i0 => by
    intro h j kv' hj
    rw [rule_add_kvs] at h
    match h1 : rule_add_kv dir noFile i0 kv0 with
    | none => rw [h1] at h; simp at h
    | some kv1 =>
      rw [h1] at h
      match h2 : rule_add_kvs dir noFile (i0 + 1) rest with
      | none => rw [h2] at h; simp at h
      | some rest1 =>
        rw [h2] at h
        simp at h
        subst h
        match j with
        | 0 =>
          simp at hj
          subst hj
          exact ⟨kv0, by simp, by simpa using h1⟩
        | j1 + 1 =>
          simp at hj
          obtain ⟨kv, hget, hkv⟩ :=
            rule_add_kvs_get dir noFile rest rest1 (i0 + 1) h2 j1 kv' hj
          refine ⟨kv, by simpa using hget, ?_⟩
          have harith : i0 + 1 + j1 = i0 + (j1 + 1) := by omega
          rw [harith] at hkv
          exact hkv

/-- A populated QUERY/PATH/URL pattern in a non-request rule makes the
first `rule_add` loop fail. -/
theorem rule_add_kvs_reject (dir : Nat) (noFile : Bool) :
    ∀ (l : List RuleKv) (i0 j : Nat) (kv : RuleKv),
      l[j]? = some kv → kv.kv_type = i0 + j →
      (kv.kv_type = KEY_TYPE_QUERY ∨ kv.kv_type = KEY_TYPE_PATH ∨
        kv.kv_type = KEY_TYPE_URL) →
      dir ≠ RELAY_DIR_REQUEST →
      rule_add_kvs dir noFile i0 l = none
  | [], i0, j, kv => by
    intro hget _ _ _
    simp at hget
  | kv0 :: rest, i0, j, kv => by
    intro hget htype hqpu hdir
    match j with
    | 0 =>
      simp at hget
      subst hget
      rw [rule_add_kvs]
      have hbad : rule_add_kv dir noFile i0 kv0 = none := by
        unfold rule_add_kv
        rw [if_neg (by simpa using htype)]
        dsimp only []
        rw [if_pos]
        have hty := (kvLogStar_spec noFile kv0).1
        exact ⟨by rw [hty]; simpa using hqpu, hdir⟩
      rw [hbad]
    | j1 + 1 =>
      simp at hget
      have hrest : rule_add_kvs dir noFile (i0 + 1) rest = none :=
        rule_add_kvs_reject dir noFile rest (i0 + 1) j1 kv hget
          (by omega) hqpu hdir
      rw [rule_add_kvs, hrest]
      cases rule_add_kv dir noFile i0 kv0 <;> rfl

/-- Concrete rule with a populated HEADER pattern and no key, fed to
`rule_add` together with a rule file whose single line is `a*`. -/
def ruleCexIn : RelayRule :=
  ⟨1, [⟨0, 0, none, none, 0⟩, ⟨0, 0, none, none, 0⟩, ⟨2, 0, none, none, 0⟩,
       ⟨0, 0, none, none, 0⟩, ⟨0, 0, none, none, 0⟩, ⟨0, 0, none, none, 0⟩]⟩

/-- The rule `rule_add` produces from `ruleCexIn` and the line `a*`:
the file-derived key contains `*` but the GLOBBING flag is unset. -/
def ruleCexOut : RelayRule :=
  ⟨1, [⟨0, 0, some [97, 42], none, 0⟩, ⟨0, 0, none, none, 0⟩,
       ⟨2, 0, some [97, 42], none, 0⟩, ⟨0, 0, none, none, 0⟩,
       ⟨0, 0, none, none, 0⟩, ⟨0, 0, none, none, 0⟩]⟩

/-- Claim C9, counterexample: a rule accepted by `rule_add` through the
rule-file path has a populated pattern whose key `a*` contains a glob
metacharacter while its GLOBBING flag is clear, because the flag loop
ran before the file keys were substituted. -/
theorem rule_add_globbing_cex :
    rule_add ruleCexIn (some [[97, 42]]) = some [ruleCexOut] ∧
    ruleCexOut.rule_kv[2]? = some ⟨2, 0, some [97, 42], none, 0⟩ ∧
    hasGlobByte [97, 42] = true ∧
    (⟨2, 0, some [97, 42], none, 0⟩ : RuleKv).kv_flags &&&
      KV_FLAG_GLOBBING = 0 := by decide

/-- Claim C9 (amended): for rules accepted by `rule_add` without a rule
file, every populated pattern carries GLOBBING whenever its key holds
one of `*?[` and MACRO whenever its value holds a dollar byte (rules
from a rule file keep the flags computed from the original rule's keys);
and a populated QUERY/PATH/URL pattern makes `rule_add` fail whenever
the direction is not REQUEST, on both paths. -/
theorem rule_add_flags_spec (rule : RelayRule) (rs : List RelayRule)
    (hacc : rule_add rule none = some rs)
    (rule2 : RelayRule) (rf : Option (List (List Nat))) (j : Nat)
    (kvq : RuleKv) (hq : rule2.rule_kv[j]? = some kvq)
    (hqt : kvq.kv_type = j)
    (hqpu : kvq.kv_type = KEY_TYPE_QUERY ∨ kvq.kv_type = KEY_TYPE_PATH ∨
      kvq.kv_type = KEY_TYPE_URL)
    (hdir : rule2.rule_dir ≠ RELAY_DIR_REQUEST) :
    (∀ r ∈ rs, ∀ (i : Nat) (kv : RuleKv), r.rule_kv[i]? = some kv →
      kv.kv_type = i →
      (∀ k, kv.kv_key = some k → hasGlobByte k = true →
        kv.kv_flags &&& KV_FLAG_GLOBBING ≠ 0) ∧
      (∀ v, kv.kv_value = some v → hasDollarByte v = true →
        kv.kv_flags &&& KV_FLAG_MACRO_BIT ≠ 0)) ∧
    rule_add rule2 rf = none := by
  constructor
  · intro r hr i kv hget htype
    unfold rule_add at hacc
    simp only [Option.isNone_none] at hacc
    match hkvs : rule_add_kvs rule.rule_dir true 0 rule.rule_kv with
    | none => rw [hkvs] at hacc; simp at hacc
    | some kvs =>
      rw [hkvs] at hacc
      simp at hacc
      subst hacc
      simp at hr
      subst hr
      simp at hget
      obtain ⟨kv0, hget0, hkv0⟩ :=
        rule_add_kvs_get rule.rule_dir true rule.rule_kv kvs 0 hkvs i kv hget
      simp at hkv0
      exact rule_add_kv_flags rule.rule_dir true i kv0 kv hkv0 htype
  · unfold rule_add
    rw [rule_add_kvs_reject rule2.rule_dir rf.isNone rule2.rule_kv 0 j kvq hq
      (by simpa using hqt) hqpu hdir]

/-- Concrete request rule with a populated HEADER pattern whose key is
`*`. -/
def ruleWIn : RelayRule :=
  ⟨1, [⟨0, 0, none, none, 0⟩, ⟨0, 0, none, none, 0⟩,
       ⟨2, 0, some [42], none, 0⟩, ⟨0, 0, none, none, 0⟩,
       ⟨0, 0, none, none, 0⟩, ⟨0, 0, none, none, 0⟩]⟩

/-- The accepted form of `ruleWIn`: the HEADER pattern got GLOBBING. -/
def ruleWOut : RelayRule :=
  ⟨1, [⟨0, 0, none, none, 0⟩, ⟨0, 0, none, none, 0⟩,
       ⟨2, 0, some [42], none, 2⟩, ⟨0, 0, none, none, 0⟩,
       ⟨0, 0, none, none, 0⟩, ⟨0, 0, none, none, 0⟩]⟩

/-- Concrete response rule with a populated QUERY pattern, which
`rule_add` must reject. -/
def ruleWBad : RelayRule :=
  ⟨2, [⟨0, 0, none, none, 0⟩, ⟨0, 0, none, none, 0⟩, ⟨0, 0, none, none, 0⟩,
       ⟨0, 0, none, none, 0⟩, ⟨4, 0, none, none, 0⟩, ⟨0, 0, none, none, 0⟩]⟩

/-- Witness for the amended C9 at concrete rules. -/
theorem rule_add_flags_spec_witness :
    rule_add ruleWIn none = some [ruleWOut] ∧
    (⟨2, 0, some [42], none, 2⟩ : RuleKv).kv_flags &&&
      KV_FLAG_GLOBBING ≠ 0 ∧
    rule_add ruleWBad none = none := by
  have h := rule_add_flags_spec ruleWIn [ruleWOut] (by decide) ruleWBad none 4
    ⟨4, 0, none, none, 0⟩ (by decide) (by decide) (by decide) (by decide)
  exact ⟨by decide,
    (h.1 ruleWOut (by decide) 2 ⟨2, 0, some [42], none, 2⟩ (by decide)
      (by decide)).1 [42] (by decide) (by decide), h.2⟩

/-! ### Hostname canonicalization (canonicalize_host)

Only the hostname branch is embedded: the claim restricts inputs to
strings that are not literal IPv4/IPv6 addresses, for which
`inet_pton` fails and control reaches the hostname code.  `host` is the
NUL-free input string, `len` the caller's buffer size (the buffer holds
at most `len - 1` name bytes plus the NUL). -/

/-- The first loop of `canonicalize_host`: lower-case each byte, skip a
dot at position 0 or after another dot, fail (`none`) when the output
index would reach `len - 1` while input remains. -/
def canonLoop (len : Nat) : List Nat → List Nat → Option (List Nat)
  | [], acc => some acc
  | c :: host, acc =>
    if len - 1 ≤ acc.length then none
    else
      if tolowerB c = 46 ∧ (acc = [] ∨ acc.getLast? = some 46) then
        canonLoop len host acc
      else canonLoop len host (acc ++ [tolowerB c])

/-- The same loop without the buffer bound (what the code computes when
the buffer is large enough). -/
def canonFull : List Nat → List Nat → List Nat
  | [], acc => acc
  | c :: host, acc =>
    if tolowerB c = 46 ∧ (acc = [] ∨ acc.getLast? = some 46) then
      canonFull host acc
    else canonFull host (acc ++ [tolowerB c])

/-- The second loop of `canonicalize_host`: remove trailing dots. -/
def stripDots (l : List Nat) : List Nat :=
  (l.reverse.dropWhile (fun c => c == 46)).reverse

/-- The canonical form of a hostname, independent of the buffer: both
loops with no length limit. -/
def canonSpec (host : List Nat) : List Nat := stripDots (canonFull host [])

/-- Embedding of the hostname branch of `canonicalize_host`: `NULL`
(i.e. `none`, with `errno = EINVAL`) when the buffer is shorter than 2,
when the copy loop runs out of buffer, or when nothing but dots
remains. -/
def canonicalize_host (host : List Nat) (len : Nat) : Option (List Nat) :=
  if len < 2 then none
  else
    match canonLoop len host [] with
    | none => none
    | some acc =>
      match stripDots acc with
      | [] => none
      | r => some r

/-- No ASCII upper-case byte in the list. -/
def noUpperL (l : List Nat) : Bool := l.all (fun c => !isUpperB c)

/-- No two consecutive dot bytes. -/
def okDots : List Nat → Bool
  | [] => true
  | [_] => true
  | c :: d :: r => !(c == 46 && d == 46) && okDots (d :: r)

theorem canonLoop_eq_full (len : Nat) :
    ∀ (host acc r : List Nat), canonLoop len host acc = some r →
      canonFull host acc = r
  | [], acc, r => by
    intro h
    simp [canonLoop] at h
    simp [canonFull, h]
  | c :: host, acc, r => by
    intro h
    rw [canonLoop] at h
    split at h
    · simp at h
    · rw [canonFull]
      split at h
      · rename_i hc
        rw [if_pos hc]
        exact canonLoop_eq_full len host acc r h
      · rename_i hc
        rw [if_neg hc]
        exact canonLoop_eq_full len host (acc ++ [tolowerB c]) r h

theorem canonLoop_le (len : Nat) :
    ∀ (host acc r : List Nat), acc.length ≤ len - 1 →
      canonLoop len host acc = some r → r.length ≤ len - 1
  | [], acc, r => by
    intro hacc h
    simp [canonLoop] at h
    subst h
    exact hacc
  | c :: host, acc, r => by
    intro hacc h
    rw [canonLoop] at h
    split at h
    · simp at h
    · rename_i hlt
      split at h
      · exact canonLoop_le len host acc r hacc h
      · refine canonLoop_le len host (acc ++ [tolowerB c]) r ?_ h
        simp
        omega

theorem okDots_cons_cons (c d : Nat) (r : List Nat) :
    okDots (c :: d :: r) = (!(c == 46 && d == 46) && okDots (d :: r)) := rfl

theorem okDots_append {l : List Nat} {x : Nat} (h : okDots l = true)
    (hx : x ≠ 46 ∨ (l ≠ [] ∧ l.getLast? ≠ some 46)) :
    okDots (l ++ [x]) = true := by
  induction l with
  | nil => simp [okDots]
  | cons c rest ih =>
    match rest with
    | [] =>
      simp [okDots, okDots_cons_cons]
      rcases hx with hx | hx
      · exact Or.inr hx
      · simp at hx
        exact Or.inl hx
    | d :: rest1 =>
      rw [okDots_cons_cons] at h
      simp at h
      have hih : okDots ((d :: rest1) ++ [x]) = true := by
        apply ih h.2
        rcases hx with hx | hx
        · exact Or.inl hx
        · refine Or.inr ⟨by simp, ?_⟩
          have := hx.2
          simpa using this
      simp only [List.cons_append]
      rw [okDots_cons_cons]
      simp only [List.cons_append] at hih
      simp at hih ⊢
      exact ⟨h.1, hih⟩

/-- The loop invariant of `canonFull`: lower-case output, no leading
dot, no doubled dot, preserved from `acc` to the result. -/
theorem canonFull_inv :
    ∀ (host acc : List Nat),
      noUpperL acc = true → acc.head? ≠ some 46 → okDots acc = true →
      noUpperL (canonFull host acc) = true ∧
      (canonFull host acc).head? ≠ some 46 ∧
      okDots (canonFull host acc) = true
  | [], acc => by
    intro h1 h2 h3
    rw [canonFull]
    exact ⟨h1, h2, h3⟩
  | c :: host, acc => by
    intro h1 h2 h3
    rw [canonFull]
    split
    · exact canonFull_inv host acc h1 h2 h3
    · rename_i hc
      apply canonFull_inv host (acc ++ [tolowerB c])
      · simp [noUpperL] at h1 ⊢
        exact ⟨h1, by simpa using tolowerB_not_upper c⟩
      · rcases hacc : acc with _ | ⟨a0, arest⟩
        · simp
          intro hdot
          exact hc ⟨hdot, Or.inl hacc⟩
        · simpa [hacc] using h2
      · apply okDots_append h3
        by_cases hd : tolowerB c = 46
        · refine Or.inr ⟨?_, ?_⟩
          · intro he
            exact hc ⟨hd, Or.inl he⟩
          · intro hl
            exact hc ⟨hd, Or.inr hl⟩
        · exact Or.inl hd

theorem dropWhile_head_not (p : Nat → Bool) :
    ∀ (m : List Nat) (c : Nat) (r : List Nat),
      m.dropWhile p = c :: r → p c = false
  | [], c, r => by simp
  | x :: xs, c, r => by
    intro h
    rw [List.dropWhile_cons] at h
    split at h
    · exact dropWhile_head_not p xs c r h
    · simp at h
      rw [← h.1]
      simpa using (by assumption : ¬ p x = true)

theorem stripDots_decomp (l : List Nat) :
    l = stripDots l ++ (l.reverse.takeWhile (fun c => c == 46)).reverse := by
  unfold stripDots
  conv_lhs => rw [← List.reverse_reverse l,
    ← List.takeWhile_append_dropWhile (p := fun c => c == 46) (l := l.reverse)]
  rw [List.reverse_append]

theorem stripDots_getLast (l : List Nat) :
    stripDots l = [] ∨ (stripDots l).getLast? ≠ some 46 := by
  unfold stripDots
  match h : l.reverse.dropWhile (fun c => c == 46) with
  | [] => exact Or.inl rfl
  | c :: r =>
    right
    have hc := dropWhile_head_not (fun c => c == 46) l.reverse c r h
    simp at hc
    rw [List.getLast?_reverse]
    simpa using hc

theorem stripDots_length (l : List Nat) :
    (stripDots l).length ≤ l.length := by
  conv_rhs => rw [stripDots_decomp l]
  simp

theorem okDots_append_left :
    ∀ (a b : List Nat), okDots (a ++ b) = true → okDots a = true
  | [], _ => by simp [okDots]
  | [x], _ => by intro _; rfl
  | x :: y :: r, b => by
    intro h
    simp only [List.cons_append] at h
    rw [okDots_cons_cons] at h ⊢
    simp at h ⊢
    refine ⟨h.1, okDots_append_left (y :: r) b ?_⟩
    simpa [List.cons_append] using h.2

/-- Claim C10: on a non-address input, `canonicalize_host` either fails
or produces a non-empty name with no upper-case letter, no leading or
doubled dot, no trailing dot, fitting in the buffer; and it fails
whenever the buffer is shorter than 2, or the canonical form is empty
or does not fit. -/
theorem canonicalize_host_spec (host : List Nat) (len : Nat) :
    (∀ r, canonicalize_host host len = some r →
      r ≠ [] ∧ noUpperL r = true ∧ r.head? ≠ some 46 ∧
      okDots r = true ∧ r.getLast? ≠ some 46 ∧ r.length ≤ len - 1) ∧
    (len < 2 → canonicalize_host host len = none) ∧
    (canonSpec host = [] → canonicalize_host host len = none) ∧
    (len - 1 < (canonSpec host).length →
      canonicalize_host host len = none) := by
  refine ⟨?_, ?_, ?_, ?_⟩
  · intro r hr
    unfold canonicalize_host at hr
    split at hr
    · simp at hr
    · rename_i hlen2
      match hloop : canonLoop len host [] with
      | none => rw [hloop] at hr; simp at hr
      | some acc =>
        rw [hloop] at hr
        dsimp only [] at hr
        match hstrip : stripDots acc with
        | [] => rw [hstrip] at hr; simp at hr
        | c :: rest =>
          rw [hstrip] at hr
          simp at hr
          subst hr
          have hfull := canonLoop_eq_full len host [] acc hloop
          have hinv := canonFull_inv host [] (by simp [noUpperL])
            (by simp) (by simp [okDots])
          rw [hfull] at hinv
          have hdec := stripDots_decomp acc
          rw [hstrip] at hdec
          refine ⟨by simp, ?_, ?_, ?_, ?_, ?_⟩
          · have := hinv.1
            rw [hdec] at this
            simp [noUpperL] at this ⊢
            exact ⟨this.1, this.2.1⟩
          · have := hinv.2.1
            rw [hdec] at this
            simpa using this
          · have := hinv.2.2
            rw [hdec] at this
            exact okDots_append_left _ _ this
          · have := stripDots_getLast acc
            rw [hstrip] at this
            rcases this with h | h
            · simp at h
            · exact h
          · have hlen := canonLoop_le len host [] acc (by simp) hloop
            have := stripDots_length acc
            rw [hstrip] at this
            omega
  · intro hlen
    unfold canonicalize_host
    rw [if_pos hlen]
  · intro hempty
    unfold canonicalize_host
    split
    · rfl
    · match hloop : canonLoop len host [] with
      | none => rfl
      | some acc =>
        have hfull := canonLoop_eq_full len host [] acc hloop
        have hse : stripDots acc = [] := by
          rw [← hfull]
          exact hempty
        dsimp only []
        rw [hse]
  · intro hlong
    unfold canonicalize_host
    split
    · rfl
    · rename_i hlen2
      match hloop : canonLoop len host [] with
      | none => rfl
      | some acc =>
        exfalso
        have hfull := canonLoop_eq_full len host [] acc hloop
        have hlen := canonLoop_le len host [] acc (by simp) hloop
        have hsl : (canonSpec host).length ≤ acc.length := by
          unfold canonSpec
          rw [hfull]
          exact stripDots_length acc
        omega

/-- Witness for C10 at the concrete host `A..b` (buffer 10) and the
all-dots host `..`. -/
theorem canonicalize_host_spec_witness :
    canonicalize_host [65, 46, 46, 98] 10 = some [97, 46, 98] ∧
    noUpperL [97, 46, 98] = true ∧
    okDots [97, 46, 98] = true ∧
    canonicalize_host [46, 46] 10 = none := by
  refine ⟨by decide, ?_, ?_, ?_⟩
  · exact ((canonicalize_host_spec [65, 46, 46, 98] 10).1 [97, 46, 98]
      (by decide)).2.1
  · exact ((canonicalize_host_spec [65, 46, 46, 98] 10).1 [97, 46, 98]
      (by decide)).2.2.2.1
  · exact (canonicalize_host_spec [46, 46] 10).2.2.1 (by decide)

/-! ### The CA key-operation RPC (ca_dispatch_relay, rsae_send_imsg)

`struct ctl_keyop` carries the object id, the requesting relay instance,
the input length, the output length and the padding mode (`int` fields
as `Int`, the id as an unsigned `objid_t`).  An imsg is modelled as its
type together with the decoded `ctl_keyop` header and the raw payload
bytes that follow it (`IMSG_DATA_SIZE - sizeof cko` bytes); the
`IMSG_SIZE_CHECK` that the data holds at least a `ctl_keyop` is implied
by the typed layout.  `fatalx` terminates the worker and is a dedicated
constructor.  Message type values are placeholders for the
`enum imsg_type` constants; only their distinctness matters. -/

def IMSG_CA_PRIVENC : Nat := 40
def IMSG_CA_PRIVDEC : Nat := 41

/-- Model of `struct ctl_keyop`. -/
structure CtlKeyop where
  cko_id : Nat
  cko_proc : Int
  cko_flen : Int
  cko_tlen : Int
  cko_padding : Int
deriving DecidableEq

/-- Model of an imsg on the relay-CA channel. -/
structure KeyopImsg where
  hdr_type : Nat
  cko : CtlKeyop
  payload : List Nat
deriving DecidableEq

/-- Embedding of `pkey_find`: look up a private-key handle (abstracted
to an opaque `Nat`) by object id in `sc_pkeys`. -/
def pkey_find (pkeys : List (Nat × Nat)) (id : Nat) : Option Nat :=
  (pkeys.find? (fun p => p.1 == id)).map (fun p => p.2)

/-- Outcome of `ca_dispatch_relay`: `fatal` models `fatalx` (the CA
worker terminates), `replyTo proc t cko payload` models the
`proc_composev_imsg` reply to relay instance `proc`, `unhandled` is the
`return -1` default. -/
inductive CaDispatch where
  | fatal : CaDispatch
  | replyTo (proc : Int) (t : Nat) (cko : CtlKeyop) (payload : List Nat) :
      CaDispatch
  | unhandled : CaDispatch
deriving DecidableEq

/-- Embedding of `ca_dispatch_relay`.  `rsa` abstracts
`RSA_private_encrypt`/`RSA_private_decrypt` on the found key: it takes
the message type, key handle, input bytes and padding and returns the
`int` result (the output length, or -1 on failure) and the output
bytes.  An unknown id (or a non-RSA key, which fails
`EVP_PKEY_get1_RSA` the same way) is `fatalx`; so are a bad relay
instance and a payload size that does not match `cko_flen`.  The reply
carries the output bytes only when the returned `cko_tlen` is
non-zero. -/
def ca_dispatch_relay
    (rsa : Nat → Nat → List Nat → Int → Int × List Nat)
    (sc_prefork_relay : Int) (pkeys : List (Nat × Nat))
    (m : KeyopImsg) : CaDispatch :=
  if m.hdr_type = IMSG_CA_PRIVENC ∨ m.hdr_type = IMSG_CA_PRIVDEC then
    if m.cko.cko_proc > sc_prefork_relay then .fatal
    else if (m.payload.length : Int) ≠ m.cko.cko_flen then .fatal
    else
      match pkey_find pkeys m.cko.cko_id with
      | none => .fatal
      | some key =>
        let r := rsa m.hdr_type key m.payload m.cko.cko_padding
        .replyTo m.cko.cko_proc m.hdr_type { m.cko with cko_tlen := r.1 }
          (if r.1 ≠ 0 then r.2 else [])
  else .unhandled

/-- Embedding of the reply handling of `rsae_send_imsg` in the relay:
a reply of the wrong type or whose data size does not equal
`sizeof cko + cko_tlen` is `fatalx` (`none`); otherwise the method
returns `cko_tlen`, so a zero-length reply surfaces as the return value
0, the OpenSSL convention for a failed private-key operation. -/
def rsae_recv_reply (cmd : Nat) (reply : KeyopImsg) : Option Int :=
  if reply.hdr_type ≠ cmd then none
  else if (reply.payload.length : Int) ≠ reply.cko.cko_tlen then none
  else some reply.cko.cko_tlen

/-- Trivial RSA oracle for concrete evaluation. -/
def rsaOracle0 : Nat → Nat → List Nat → Int → Int × List Nat :=
  fun _ _ _ _ => (0, [])

/-- Concrete key-op request whose object id 5 is not in the (empty)
pkey table. -/
def ckoUnknown : KeyopImsg := ⟨40, ⟨5, 0, 2, 128, 1⟩, [1, 2]⟩

/-- Claim C1, counterexample: a `IMSG_CA_PRIVENC` request with an
unknown `objid` (well-formed otherwise: instance 0 of 1, payload length
matching `cko_flen`) makes the CA worker `fatalx` - it terminates and
sends no reply at all, in particular no zero-length reply. -/
theorem ca_unknown_objid_cex :
    ca_dispatch_relay rsaOracle0 1 [] ckoUnknown = CaDispatch.fatal ∧
    pkey_find [] (5 : Nat) = none := by decide

/-- Claim C1 (amended): an unknown `objid` (with the other request
checks passing) terminates the CA worker via `fatalx` instead of
producing a reply; when the CA does reply with `cko_tlen = 0` (a
zero-length reply), the relay-side RSA method surfaces it as the return
value 0, a method failure. -/
theorem ca_error_contract (rsa : Nat → Nat → List Nat → Int → Int × List Nat)
    (prefork : Int) (pkeys : List (Nat × Nat)) (m : KeyopImsg)
    (htype : m.hdr_type = IMSG_CA_PRIVENC ∨ m.hdr_type = IMSG_CA_PRIVDEC)
    (hproc : ¬ m.cko.cko_proc > prefork)
    (hflen : (m.payload.length : Int) = m.cko.cko_flen)
    (hid : pkey_find pkeys m.cko.cko_id = none)
    (cmd : Nat) (cko : CtlKeyop) (hcko : cko.cko_tlen = 0) :
    ca_dispatch_relay rsa prefork pkeys m = CaDispatch.fatal ∧
    rsae_recv_reply cmd ⟨cmd, cko, []⟩ = some 0 := by
  constructor
  · unfold ca_dispatch_relay
    rw [if_pos htype, if_neg hproc, if_neg (by simp [hflen]), hid]
  · unfold rsae_recv_reply
    simp [hcko]

/-- Witness for the amended C1 at concrete inputs. -/
theorem ca_error_contract_witness :
    ca_dispatch_relay rsaOracle0 1 [(7, 3)] ⟨41, ⟨9, 1, 1, 64, 1⟩, [0]⟩ =
      CaDispatch.fatal ∧
    rsae_recv_reply 41 ⟨41, ⟨9, 1, 1, 0, 1⟩, []⟩ = some 0 :=
  ⟨(ca_error_contract rsaOracle0 1 [(7, 3)] ⟨41, ⟨9, 1, 1, 64, 1⟩, [0]⟩
      (by decide) (by decide) (by decide) (by decide) 41 ⟨9, 1, 1, 0, 1⟩
      rfl).1,
   (ca_error_contract rsaOracle0 1 [(7, 3)] ⟨41, ⟨9, 1, 1, 64, 1⟩, [0]⟩
      (by decide) (by decide) (by decide) (by decide) 41 ⟨9, 1, 1, 0, 1⟩
      rfl).2⟩

/-! ### Parent configure/reload state machine

The parent state is reduced to the fields the claims talk about: the
`sc_reload` counter, the prefork width and the in-memory configuration,
the latter as four entity categories with opaque contents.  Privsep
process ids are PARENT 0, HCE 1, RELAY 2, PFE 3, CA 4 (PROC_MAX 5,
values from the privsep header; only their distinctness matters);
`privsep_process` is PROC_PARENT in the parent.  The `CONFIG_*` scope
bits follow relayd.h (TABLES 0x01, RDRS 0x02, RELAYS 0x04, PROTOS
0x08, ALL 0xff) with `CONFIG_RELOAD` a distinct sentinel. -/

def CONFIG_TABLES : Nat := 0x01
def CONFIG_RDRS : Nat := 0x02
def CONFIG_RELAYS : Nat := 0x04
def CONFIG_PROTOS : Nat := 0x08
def CONFIG_ALL : Nat := 0xff
def CONFIG_RELOAD : Nat := 0xffff
def PROC_PARENT : Nat := 0

/-- The privsep process ids, PROC_PARENT through PROC_CA. -/
def procIds : List Nat := [0, 1, 2, 3, 4]

/-- The targets of a parent broadcast: every process except the parent
itself (the `id == privsep_process` skip in the loops). -/
def broadcastTargets : List Nat := procIds.filter (fun id => id ≠ PROC_PARENT)

/-- The parent's in-memory configuration, by entity category. -/
structure PConfig where
  tables : List Nat
  rdrs : List Nat
  protos : List Nat
  relays : List Nat
deriving DecidableEq

/-- The purged (empty) configuration. -/
def PConfig.empty : PConfig := ⟨[], [], [], []⟩

/-- Parent state. -/
structure PState where
  sc_reload : Nat
  sc_prefork_relay : Nat
  config : PConfig
deriving DecidableEq

/-- Modelled from the spec: `config_purge` (config.c, not among the
sources) drops the categories of the parent's in-memory configuration
selected by the scope mask ("Parent purges its in-memory config"). -/
def config_purge (st : PState) (mask : Nat) : PState :=
  { st with config :=
    { tables := if mask &&& CONFIG_TABLES ≠ 0 then [] else st.config.tables
      rdrs := if mask &&& CONFIG_RDRS ≠ 0 then [] else st.config.rdrs
      protos := if mask &&& CONFIG_PROTOS ≠ 0 then [] else st.config.protos
      relays := if mask &&& CONFIG_RELAYS ≠ 0 then [] else st.config.relays } }

/-- Modelled from the spec: `load_config` (config.c, not among the
sources) re-parses the configuration file, returning -1 on a parse
error; the parse result is abstracted as an optional parsed
configuration, installed on success.  On failure the model leaves the
state as is (the most favourable reading for the claim). -/
def load_config (parsed : Option PConfig) (st : PState) : PState × Bool :=
  match parsed with
  | none => (st, false)
  | some c => ({ st with config := c }, true)

/-- Parent-emitted control messages (`proc_compose_imsg` targets). -/
inductive PMsg where
  | cfgDone (procId : Nat) : PMsg
  | ctlStart (procId : Nat) : PMsg
  | ctlReset (procId : Nat) : PMsg
deriving DecidableEq

/-- Parent log lines relevant to the claims. -/
inductive PLog where
  | reloadInProgress : PLog
  | reloadLevel : PLog
  | loadFailed : PLog
  | cfgAlreadyFinished : PLog
deriving DecidableEq

/-- Embedding of `parent_configure`: send the entities (not modelled:
they copy the config), set `sc_reload = 2 + 2*sc_prefork_relay`, send
`IMSG_CFG_DONE` to every process but the parent, then purge everything
but the relays.  The pf-socket failure path only changes the return
value and is not modelled. -/
def parent_configure (st : PState) : PState × List PMsg :=
  let st1 := { st with sc_reload := 2 + 2 * st.sc_prefork_relay }
  (config_purge st1 (CONFIG_ALL ^^^ CONFIG_RELAYS),
   broadcastTargets.map PMsg.cfgDone)

/-- Embedding of `parent_reload`: reject when a reload is pending;
otherwise purge everything, and for a `CONFIG_RELOAD` request re-parse
(logging on failure), broadcast the reset (`config_setreset`) and
re-distribute via `parent_configure`; for a narrower reset only
broadcast the reset. -/
def parent_reload (parsed : Option PConfig) (reset : Nat) (st : PState) :
    PState × List PMsg × List PLog :=
  if st.sc_reload ≠ 0 then (st, [], [PLog.reloadInProgress])
  else
    let st1 := config_purge st CONFIG_ALL
    if reset = CONFIG_RELOAD then
      let res := load_config parsed st1
      let lf := if res.2 then [] else [PLog.loadFailed]
      let conf := parent_configure res.1
      (conf.1, broadcastTargets.map PMsg.ctlReset ++ conf.2,
        PLog.reloadLevel :: lf)
    else
      (st1, broadcastTargets.map PMsg.ctlReset, [PLog.reloadLevel])

/-- Embedding of `parent_configure_done`: an acknowledgement at zero
only warns; otherwise decrement, and broadcast `IMSG_CTL_START` to
every process but the parent exactly when the counter reaches zero. -/
def parent_configure_done (st : PState) : PState × List PMsg × List PLog :=
  if st.sc_reload = 0 then (st, [], [PLog.cfgAlreadyFinished])
  else
    let st1 := { st with sc_reload := st.sc_reload - 1 }
    if st1.sc_reload = 0 then
      (st1, broadcastTargets.map PMsg.ctlStart, [])
    else (st1, [], [])

/-- Claim C3: with a reload pending (`sc_reload > 0`), `parent_reload`
returns after a single log line: no messages, no state change. -/
theorem parent_reload_serial (parsed : Option PConfig) (reset : Nat)
    (st : PState) (h : 0 < st.sc_reload) :
    parent_reload parsed reset st = (st, [], [PLog.reloadInProgress]) := by
  unfold parent_reload
  rw [if_pos (by omega)]

/-- Witness for C3 at a concrete pending state. -/
theorem parent_reload_serial_witness :
    parent_reload none CONFIG_RELOAD ⟨3, 1, ⟨[9], [], [], [7]⟩⟩ =
      (⟨3, 1, ⟨[9], [], [], [7]⟩⟩, [], [PLog.reloadInProgress]) :=
  parent_reload_serial none CONFIG_RELOAD ⟨3, 1, ⟨[9], [], [], [7]⟩⟩
    (by decide)

/-- Concrete parent state with a live, non-empty configuration and no
reload in progress. -/
def pStateCex : PState := ⟨0, 1, ⟨[1], [2], [3], [4]⟩⟩

/-- Claim C2, counterexample: with no reload pending, a reload whose
re-parse fails leaves the parent with a configuration different from
the one live before the reload (it was purged before parsing), even
though the failure is logged. -/
theorem parent_reload_parse_failure_cex :
    (parent_reload none CONFIG_RELOAD pStateCex).1.config ≠
      pStateCex.config ∧
    PLog.loadFailed ∈ (parent_reload none CONFIG_RELOAD pStateCex).2.2 ∧
    pStateCex.sc_reload = 0 := by decide

/-- Claim C2 (amended): with no reload pending, when the re-parse
fails the error is logged, but the previously live configuration does
not stay live: `parent_reload` has already purged it
(`config_purge(env, CONFIG_ALL)` runs before `load_config`), so the
parent continues with the empty configuration and redistributes it. -/
theorem parent_reload_parse_failure (st : PState) (h0 : st.sc_reload = 0) :
    (parent_reload none CONFIG_RELOAD st).1.config = PConfig.empty ∧
    PLog.loadFailed ∈ (parent_reload none CONFIG_RELOAD st).2.2 ∧
    (parent_reload none CONFIG_RELOAD st).1.sc_reload =
      2 + 2 * st.sc_prefork_relay := by
  unfold parent_reload
  rw [if_neg (by omega)]
  simp [load_config, parent_configure, config_purge, PConfig.empty,
    CONFIG_RELOAD, CONFIG_ALL, CONFIG_RELAYS, CONFIG_TABLES, CONFIG_RDRS,
    CONFIG_PROTOS]

/-- Witness for the amended C2 at a concrete state. -/
theorem parent_reload_parse_failure_witness :
    (parent_reload none CONFIG_RELOAD pStateCex).1.config = PConfig.empty ∧
    PLog.loadFailed ∈ (parent_reload none CONFIG_RELOAD pStateCex).2.2 ∧
    (parent_reload none CONFIG_RELOAD pStateCex).1.sc_reload = 4 :=
  ⟨(parent_reload_parse_failure pStateCex rfl).1,
   (parent_reload_parse_failure pStateCex rfl).2.1,
   (parent_reload_parse_failure pStateCex rfl).2.2⟩

/-- Claim C4: `parent_configure` sets the pending counter to
`2 + 2*N`; an acknowledgement at zero only warns and changes nothing;
otherwise each acknowledgement decrements by one and `IMSG_CTL_START`
is broadcast to every worker exactly when the counter reaches zero. -/
theorem parent_configure_counter (st st0 stp : PState)
    (hz : st0.sc_reload = 0) (hp : stp.sc_reload ≠ 0) :
    (parent_configure st).1.sc_reload = 2 + 2 * st.sc_prefork_relay ∧
    parent_configure_done st0 = (st0, [], [PLog.cfgAlreadyFinished]) ∧
    (parent_configure_done stp).1 =
      { stp with sc_reload := stp.sc_reload - 1 } ∧
    ((parent_configure_done stp).2.1 =
      broadcastTargets.map PMsg.ctlStart ↔ stp.sc_reload = 1) ∧
    (stp.sc_reload ≠ 1 → (parent_configure_done stp).2.1 = []) := by
  refine ⟨?_, ?_, ?_, ?_, ?_⟩
  · simp [parent_configure, config_purge]
  · unfold parent_configure_done
    rw [if_pos hz]
  · unfold parent_configure_done
    rw [if_neg hp]
    dsimp only []
    split <;> rfl
  · unfold parent_configure_done
    rw [if_neg hp]
    dsimp only []
    have hbt : broadcastTargets.map PMsg.ctlStart =
        [PMsg.ctlStart 1, PMsg.ctlStart 2, PMsg.ctlStart 3,
         PMsg.ctlStart 4] := rfl
    split
    · rename_i hone
      simp only [hbt]
      simp at hone ⊢
      omega
    · rename_i hone
      simp only [hbt]
      simp at hone ⊢
      omega
  · intro hone
    unfold parent_configure_done
    rw [if_neg hp]
    dsimp only []
    rw [if_neg (by omega)]

/-- Witness for C4 at concrete states: prefork 2 gives a counter of 6;
an acknowledgement at zero warns; an acknowledgement at one broadcasts
the start to HCE, RELAY, PFE and CA. -/
theorem parent_configure_counter_witness :
    (parent_configure ⟨0, 2, PConfig.empty⟩).1.sc_reload = 6 ∧
    parent_configure_done ⟨0, 2, PConfig.empty⟩ =
      (⟨0, 2, PConfig.empty⟩, [], [PLog.cfgAlreadyFinished]) ∧
    (parent_configure_done ⟨1, 2, PConfig.empty⟩).2.1 =
      [PMsg.ctlStart 1, PMsg.ctlStart 2, PMsg.ctlStart 3, PMsg.ctlStart 4] := by
  have h := parent_configure_counter ⟨0, 2, PConfig.empty⟩
    ⟨0, 2, PConfig.empty⟩ ⟨1, 2, PConfig.empty⟩ rfl (by decide)
  refine ⟨h.1, h.2.1, ?_⟩
  rw [h.2.2.2.1.mpr rfl]
  decide

/-! ### Parent signal handling (parent_sig_handler)

The handler is modelled as a function of the delivered signal and of
the list of children the `waitpid` loop reaps (each with its pid, its
privsep process id and whether it terminated abnormally).  In the
source, SIGTERM/SIGINT set `die` before falling through to the reap
loop, and every successfully reaped child also sets `die = 1`; when
`die` is set the handler calls `parent_shutdown`.  BSD signal numbers
are used (their values are irrelevant to the claims). -/

def SIGHUP : Nat := 1
def SIGINT : Nat := 2
def SIGPIPE : Nat := 13
def SIGTERM : Nat := 15
def SIGCHLD : Nat := 20

/-- A child reaped by the `waitpid` loop. -/
structure ChildExit where
  pid : Nat
  procId : Nat
  failed : Bool
deriving DecidableEq

/-- What the handler does to the process after returning. -/
inductive SigAction where
  | shutdown : SigAction
  | reload : SigAction
  | ignore : SigAction
  | fatalErr : SigAction
deriving DecidableEq

/-- Embedding of `parent_sig_handler`. -/
def parent_sig_handler (sig : Nat) (reaped : List ChildExit) : SigAction :=
  if sig = SIGTERM ∨ sig = SIGINT then SigAction.shutdown
  else if sig = SIGCHLD then
    if reaped.isEmpty then SigAction.ignore else SigAction.shutdown
  else if sig = SIGHUP then SigAction.reload
  else if sig = SIGPIPE then SigAction.ignore
  else SigAction.fatalErr

/-- Claim C5, counterexample: when the parent reaps a dead CA worker
(privsep id 4, here cleanly exited), the SIGCHLD handler performs a
full `parent_shutdown` - the relay workers do not stay up and no CA
worker is respawned. -/
theorem parent_sigchld_shutdown_cex :
    parent_sig_handler SIGCHLD [⟨123, 4, false⟩] = SigAction.shutdown ∧
    parent_sig_handler SIGCHLD [⟨123, 4, false⟩] ≠ SigAction.ignore ∧
    parent_sig_handler SIGCHLD [⟨123, 4, false⟩] ≠ SigAction.reload := by
  decide

/-- Claim C5 (amended): the death of any child - a CA worker included -
makes the parent reap it and perform a full shutdown; it does not
respawn the worker, and the relay workers are torn down with it
(`parent_shutdown`).  A SIGCHLD with nothing to reap changes
nothing. -/
theorem parent_sigchld_shutdown (reaped : List ChildExit)
    (h : reaped ≠ []) :
    parent_sig_handler SIGCHLD reaped = SigAction.shutdown ∧
    parent_sig_handler SIGCHLD [] = SigAction.ignore := by
  constructor
  · unfold parent_sig_handler
    rw [if_neg (by decide), if_pos rfl, if_neg (by simpa using h)]
  · decide

/-- Witness for the amended C5 at a concrete reaped CA child. -/
theorem parent_sigchld_shutdown_witness :
    parent_sig_handler SIGCHLD [⟨77, 4, true⟩] = SigAction.shutdown ∧
    parent_sig_handler SIGCHLD [] = SigAction.ignore :=
  parent_sigchld_shutdown [⟨77, 4, true⟩] (by decide)
